import Mathlib

/-!
Shallow embedding of the recurring to-do scheduling subsystem of the fitapp
repository (source file src/pages/api/todo.ts, validation schema todoSchema,
and the Prisma todo table it operates on).

Modelling conventions:
* Datetimes are minutes since an arbitrary epoch, in server-local time,
  represented as Int (the handlers only ever read and write whole minutes:
  every Date the handler stores goes through setHours(h, m, 0, 0)).
  A calendar day d spans the window [d*1440, d*1440 + 1439].
* Record ids are Nat, issued by a nextId counter in the store state
  (standing in for cuid generation).
* The store is the list of rows in insertion order; Prisma findMany without
  orderBy is modelled as returning rows in that order.
* Store faults: each mutating Prisma call (create, delete, deleteMany,
  update) consults a schedule of booleans carried in the state; an empty
  schedule means every call succeeds.  A call whose scheduled boolean is
  false throws (modelled as Except.error carrying the state at the throw,
  since a JavaScript exception does not roll back already-performed
  database writes).  Prisma delete and update additionally throw when no
  row matches their where clause (error P2025).
* JavaScript truthiness: the handler uses the pattern (x || d) on numbers,
  where 0 and NaN select the default, and on strings, where the empty
  string selects the default.  parseInt is modelled on decimal strings
  with optional sign, returning none for NaN.
-/

/-- The recurrence enum of the Prisma todo model: NONE or DAILY. -/
inductive Recurrence where
  | NONE
  | DAILY
deriving DecidableEq, Repr

/-- A row of the todo table.  Field names and optionality follow the
Prisma model used by src/pages/api/todo.ts. -/
structure Todo where
  id : Nat
  userId : Nat
  title : String
  notes : Option String := none
  tags : List String := []
  completed : Bool := false
  dueAt : Option Int := none
  timeOfDay : Option String := none
  recurrence : Recurrence := .NONE
  isTemplate : Bool := false
  templateId : Option Nat := none
deriving DecidableEq, Repr

/-- Store state: rows in insertion order, the id counter, and the fault
schedule for mutating store calls (empty schedule = all calls succeed). -/
structure S where
  rows : List Todo
  nextId : Nat
  faults : List Bool := []
deriving DecidableEq, Repr

/-- Pop the next scheduled fault (true = the call succeeds). -/
def takeFault (s : S) : Bool × S :=
  match s.faults with
  | [] => (true, s)
  | b :: r => (b, { s with faults := r })

/-- JavaScript (number || default): 0 and NaN (none) are falsy. -/
def jsOr (x : Option Int) (d : Int) : Int :=
  match x with
  | none => d
  | some v => if v = 0 then d else v

/-- JavaScript (string || default): the empty string is falsy;
none stands for null/undefined. -/
def jsOrStr (x : Option String) (d : String) : String :=
  match x with
  | none => d
  | some v => if v = "" then d else v

/-- Numeric value of a list of decimal digit characters. -/
def digitsVal (l : List Char) : Nat :=
  l.foldl (fun a c => 10 * a + (c.toNat - 48)) 0

/-- JavaScript parseInt on the decimal strings the handler feeds it:
skip spaces, optional sign, then leading digits; none models NaN. -/
def jsParseInt (s : String) : Option Int :=
  let cs := s.toList.dropWhile (fun c => c = ' ')
  let signed : Bool × List Char :=
    match cs with
    | '-' :: rest => (true, rest)
    | '+' :: rest => (false, rest)
    | _ => (false, cs)
  let ds := signed.2.takeWhile (fun c => c.isDigit)
  if ds.isEmpty then none
  else some (if signed.1 then -(digitsVal ds : Int) else (digitsVal ds : Int))

/-- JavaScript String.prototype.split on a one-character separator,
at the character-list level. -/
def splitChars (sep : Char) : List Char → List (List Char)
  | [] => [[]]
  | c :: rest =>
    let r := splitChars sep rest
    if c = sep then [] :: r
    else
      match r with
      | h :: t => (c :: h) :: t
      | [] => [[c]]

/-- someString.split(":").map(parseInt) destructured as [hh, mm]:
a missing second part behaves like NaN (none). -/
def parseHM (s : String) : Option Int × Option Int :=
  let parts := (splitChars ':' s.toList).map (fun l => String.mk l)
  (match parts.get? 0 with
   | some p => jsParseInt p
   | none => none,
   match parts.get? 1 with
   | some p => jsParseInt p
   | none => none)

/-- Midnight of the local day containing instant t (minutes). -/
def dayStart (t : Int) : Int := t - t.emod 1440

/-- getHours() of an instant. -/
def hourOf (t : Int) : Nat := (t.emod 1440).toNat / 60

/-- getMinutes() of an instant. -/
def minOf (t : Int) : Nat := (t.emod 60).toNat

/-- The decimal digit character for n < 10. -/
def digitChar (n : Nat) : Char := Char.ofNat (48 + n)

/-- Two-digit zero-padded rendering of the hour and minute components
(values below 100), as produced by padStart(2, the zero digit). -/
def pad2 (n : Nat) : String :=
  String.mk [digitChar (n / 10 % 10), digitChar (n % 10)]

/-- toTimeString().slice(0,5) / template-derived HH:MM of an instant. -/
def fmtHM (t : Int) : String := pad2 (hourOf t) ++ ":" ++ pad2 (minOf t)

/-- dueAt: \x7b gte: startOfDay, lte: endOfDay \x7d — a null dueAt never
matches; endOfDay is 23:59:59.999, i.e. minute 1439 at our granularity. -/
def inWindowB (start : Int) : Option Int → Bool
  | some x => decide (start ≤ x) && decide (x ≤ start + 1439)
  | none => false

/-- prisma.todo.create: consumes one fault; on success appends the row
built from the fresh id and bumps the counter. -/
def createRow (mk : Nat → Todo) (s : S) : Except S (Todo × S) :=
  let (ok, s₁) := takeFault s
  if ok then
    let t := mk s₁.nextId
    .ok (t, { s₁ with rows := s₁.rows ++ [t], nextId := s₁.nextId + 1 })
  else .error s₁

/-- Remove the first row satisfying p. -/
def removeFirst (p : Todo → Bool) : List Todo → List Todo
  | [] => []
  | r :: rest => if p r then rest else r :: removeFirst p rest

/-- prisma.todo.delete where \x7b id, userId \x7d: consumes one fault;
throws P2025 when no row matches. -/
def deleteRow (i u : Nat) (s : S) : Except S S :=
  let (ok, s₁) := takeFault s
  if ok then
    match s₁.rows.find? (fun r => decide (r.id = i) && decide (r.userId = u)) with
    | some _ =>
        .ok { s₁ with rows := removeFirst (fun r => decide (r.id = i) && decide (r.userId = u)) s₁.rows }
    | none => .error s₁
  else .error s₁

/-- prisma.todo.deleteMany: consumes one fault; deleting zero rows is not
an error. -/
def deleteManyRows (p : Todo → Bool) (s : S) : Except S S :=
  let (ok, s₁) := takeFault s
  if ok then .ok { s₁ with rows := s₁.rows.filter (fun r => !(p r)) }
  else .error s₁

/-- Replace the first row matching (id, userId) by its image under f,
returning the updated row; none models Prisma error P2025. -/
def updateRow (i u : Nat) (f : Todo → Todo) : List Todo → Option (Todo × List Todo)
  | [] => none
  | r :: rest =>
    if decide (r.id = i) && decide (r.userId = u) then some (f r, f r :: rest)
    else
      match updateRow i u f rest with
      | some (t, l) => some (t, r :: l)
      | none => none

/-- The responses the four method branches can produce. -/
inductive Resp where
  | okList (todos : List Todo)
  | okTodo (t : Todo)
  | createdTodo (t : Todo)
  | okDeleted
  | badRequest
  | notFound
  | internalError
deriving DecidableEq, Repr

/-- HTTP status code of a response. -/
def Resp.status : Resp → Nat
  | .okList _ => 200
  | .okTodo _ => 200
  | .createdTodo _ => 201
  | .okDeleted => 200
  | .badRequest => 400
  | .notFound => 404
  | .internalError => 500

/-- The GET template query: where \x7b userId, isTemplate: true,
recurrence: DAILY \x7d. -/
def dailyTplB (u : Nat) (r : Todo) : Bool :=
  decide (r.userId = u) && r.isTemplate && decide (r.recurrence = Recurrence.DAILY)

/-- The reconciliation findFirst query for template tid: where
\x7b userId, isTemplate: false, templateId: tid, dueAt in today \x7d. -/
def instPredB (u : Nat) (start : Int) (tid : Nat) (r : Todo) : Bool :=
  decide (r.userId = u) && decide (r.isTemplate = false) &&
    decide (r.templateId = some tid) && inWindowB start r.dueAt

/-- Minute-of-day offset the materializer computes from the template:
parse (tpl.timeOfDay || "09:00") and apply the JavaScript fallbacks
(hh || 9, mm || 0), giving 60*hh + mm. -/
def materializeOffset (tpl : Todo) : Int :=
  let hm := parseHM (jsOrStr tpl.timeOfDay "09:00")
  60 * jsOr hm.1 9 + jsOr hm.2 0

/-- The instance the materializer creates for template tpl: hour and
minute come from (tpl.timeOfDay || "09:00") via parseInt with the
JavaScript fallbacks (hh || 9, mm || 0); title, notes and tags are
copied; timeOfDay is not set on the created row. -/
def materialize (u : Nat) (start : Int) (tpl : Todo) (i : Nat) : Todo :=
  { id := i
    userId := u
    title := tpl.title
    notes := tpl.notes
    tags := tpl.tags
    completed := false
    dueAt := some (start + materializeOffset tpl)
    timeOfDay := none
    recurrence := .NONE
    isTemplate := false
    templateId := some tpl.id }

/-- The GET reconciliation loop (lines 26-53 of todo.ts): for each daily
template, create today's instance when the findFirst probe finds none.
A create failure propagates (there is no per-template catch). -/
def reconcile (u : Nat) (start : Int) : List Todo → S → Except S S
  | [], s => .ok s
  | tpl :: rest, s =>
    match s.rows.find? (instPredB u start tpl.id) with
    | some _ => reconcile u start rest s
    | none =>
      match createRow (materialize u start tpl) s with
      | .ok (_, s₁) => reconcile u start rest s₁
      | .error s₁ => .error s₁

/-- The GET listing query: where \x7b userId, isTemplate: false \x7d plus
the optional completed filter. -/
def listPredB (u : Nat) (c : Option Bool) (r : Todo) : Bool :=
  decide (r.userId = u) && decide (r.isTemplate = false) &&
    (match c with
     | none => true
     | some b => decide (r.completed = b))

/-- Sort key of the GET comparator: dueAt timestamp, with a missing dueAt
treated as Infinity (none here). -/
def dueKey (r : Todo) : Option Int := r.dueAt

/-- Strict comparison induced by the comparator
(a.dueAt ? getTime() : Infinity) - (b.dueAt ? getTime() : Infinity). -/
def keyLT : Option Int → Option Int → Bool
  | some a, some b => decide (a < b)
  | some _, none => true
  | none, _ => false

/-- Stable insertion of x into a list sorted by the comparator: x goes
before the first element not strictly below it (V8 sort is stable). -/
def insertByTime (x : Todo) : List Todo → List Todo
  | [] => [x]
  | y :: l => if keyLT (dueKey y) (dueKey x) then y :: insertByTime x l else x :: y :: l

/-- todos.sort by the dueAt comparator, as a stable sort. -/
def sortByTime : List Todo → List Todo
  | [] => []
  | x :: l => insertByTime x (sortByTime l)

/-- The GET branch: reconcile daily templates for the day today (a day
index; startOfDay is today*1440), then list, truncate to the limit and
sort.  An exception anywhere is caught and becomes a 500. -/
def handleGET (u : Nat) (c : Option Bool) (limit : Nat) (today : Nat) (s : S) : Resp × S :=
  let start : Int := (today : Int) * 1440
  let templates := s.rows.filter (dailyTplB u)
  match reconcile u start templates s with
  | .error s₁ => (.internalError, s₁)
  | .ok s₁ =>
    let todos := (s₁.rows.filter (listPredB u c)).take limit
    (.okList (sortByTime todos), s₁)

/-- A POST body after todoSchema validation shape: title plus the optional
fields the handler reads.  dueDate is the parsed datetime in minutes;
recurrence, when present, is one of the two enum values the schema
accepts. -/
structure PostBody where
  title : String
  notes : Option String := none
  dueDate : Option Int := none
  recurrence : Option Recurrence := none
  isTemplate : Option Bool := none
  timeOfDay : Option String := none
  tags : Option (List String) := none
  completed : Option Bool := none
deriving DecidableEq, Repr

/-- The POST branch (lines 65-111 of todo.ts).  now is the current
instant in minutes.  todoSchema rejects an empty title (z.string().min(1))
with a 400; recurrence DAILY or an explicit isTemplate flag selects the
template shape.  The completed default false of the template branch is
the Prisma column default (the schema file is not part of src;
Modelled from the spec: completed defaults to false). -/
def handlePOST (u : Nat) (b : PostBody) (now : Int) (s : S) : Resp × S :=
  if b.title = "" then (.badRequest, s)
  else
    let isTpl := decide (b.recurrence = some Recurrence.DAILY) || decide (b.isTemplate = some true)
    if isTpl then
      let base := b.dueDate.getD now
      match createRow (fun i =>
        { id := i
          userId := u
          title := b.title
          notes := b.notes
          timeOfDay := some (fmtHM base)
          recurrence := .DAILY
          isTemplate := true
          tags := b.tags.getD []
          completed := false
          dueAt := none
          templateId := none }) s with
      | .ok (t, s₁) => (.createdTodo t, s₁)
      | .error s₁ => (.internalError, s₁)
    else
      let timeStr := jsOrStr b.timeOfDay (fmtHM now)
      let hm := parseHM timeStr
      let dueAt := dayStart now + 60 * jsOr hm.1 (hourOf now : Int) + jsOr hm.2 (minOf now : Int)
      match createRow (fun i =>
        { id := i
          userId := u
          title := b.title
          notes := b.notes
          dueAt := some dueAt
          timeOfDay := some timeStr
          recurrence := .NONE
          isTemplate := false
          tags := b.tags.getD []
          completed := b.completed.getD false
          templateId := none }) s with
      | .ok (t, s₁) => (.createdTodo t, s₁)
      | .error s₁ => (.internalError, s₁)

/-- A PUT body: the record id plus the optional whitelisted fields.
notes distinguishes absent (none) from an explicit null (some none);
recurrence, when present, is an enum value (Prisma rejects other strings
before any write). -/
structure PutBody where
  id : Nat
  title : Option String := none
  notes : Option (Option String) := none
  tags : Option (List String) := none
  completed : Option Bool := none
  timeOfDay : Option String := none
  recurrence : Option Recurrence := none
  isTemplate : Option Bool := none
deriving DecidableEq, Repr

/-- Apply the PUT field whitelist (lines 116-130 of todo.ts) to a row.
Setting timeOfDay recomputes dueAt for the current day with the
JavaScript fallbacks (hh || 0, mm || 0). -/
def applyUpdates (b : PutBody) (now : Int) (r : Todo) : Todo :=
  let r := match b.title with | some t => { r with title := t } | none => r
  let r := match b.notes with | some n => { r with notes := n } | none => r
  let r := match b.tags with | some tg => { r with tags := tg } | none => r
  let r := match b.completed with | some c => { r with completed := c } | none => r
  let r := match b.timeOfDay with
    | some tod =>
      let hm := parseHM tod
      { r with timeOfDay := some tod
               dueAt := some (dayStart now + 60 * jsOr hm.1 0 + jsOr hm.2 0) }
    | none => r
  let r := match b.recurrence with | some rec₀ => { r with recurrence := rec₀ } | none => r
  match b.isTemplate with | some it => { r with isTemplate := it } | none => r

/-- The PUT branch (lines 112-138 of todo.ts): prisma.todo.update scoped
by \x7b id, userId \x7d; a missing row throws P2025, which the outer
catch turns into a 500. -/
def handlePUT (u : Nat) (b : PutBody) (now : Int) (s : S) : Resp × S :=
  let (ok, s₁) := takeFault s
  if ok then
    match updateRow b.id u (applyUpdates b now) s₁.rows with
    | some (t, rows₁) => (.okTodo t, { s₁ with rows := rows₁ })
    | none => (.internalError, s₁)
  else (.internalError, s₁)

/-- The DELETE branch (lines 140-167 of todo.ts): findUnique scoped by
\x7b id, userId \x7d, 404 when absent; a generated instance deletes its
template then every sibling instance; a template deletes itself and its
children in one deleteMany; a one-off deletes only itself.  Any thrown
store error becomes a 500 via the outer catch, with all writes performed
before the throw kept. -/
def handleDELETE (u : Nat) (i : Nat) (s : S) : Resp × S :=
  match s.rows.find? (fun r => decide (r.id = i) && decide (r.userId = u)) with
  | none => (.notFound, s)
  | some r =>
    match r.templateId with
    | some tid =>
      match deleteRow tid u s with
      | .error s₁ => (.internalError, s₁)
      | .ok s₁ =>
        match deleteManyRows (fun x => decide (x.templateId = some tid) && decide (x.userId = u)) s₁ with
        | .error s₂ => (.internalError, s₂)
        | .ok s₂ => (.okDeleted, s₂)
    | none =>
      if r.isTemplate then
        match deleteManyRows (fun x => (decide (x.id = i) || decide (x.templateId = some i)) && decide (x.userId = u)) s with
        | .error s₁ => (.internalError, s₁)
        | .ok s₁ => (.okDeleted, s₁)
      else
        match deleteRow i u s with
        | .error s₁ => (.internalError, s₁)
        | .ok s₁ => (.okDeleted, s₁)

/-- N sequential GET requests with the same query and day, threading the
store state. -/
def iterGET (u : Nat) (c : Option Bool) (limit : Nat) (today : Nat) : Nat → S → S
  | 0, s => s
  | n + 1, s => iterGET u c limit today n (handleGET u c limit today s).2

/-- Number of generated instances of template tid for day, owned by u:
isTemplate false, templateId = tid, dueAt inside the day window. -/
def countInst (u tid day : Nat) (s : S) : Nat :=
  (s.rows.filter (instPredB u ((day : Int) * 1440) tid)).length

/-- The data-model shape invariants of the spec: a template record has
recurrence DAILY and no templateId; a record with a templateId is a
non-template with recurrence NONE. -/
def shapeInvB (r : Todo) : Bool :=
  (decide (r.isTemplate = false) ||
    (decide (r.recurrence = Recurrence.DAILY) && decide (r.templateId = none))) &&
  (decide (r.templateId = none) ||
    (decide (r.isTemplate = false) && decide (r.recurrence = Recurrence.NONE)))

/-! Concrete stores used by the counterexample and failing-input theorems. -/

/-- A daily template whose timeOfDay string parses to hour 25: reachable
because the PUT whitelist stores any string into timeOfDay. -/
def c1tpl : Todo :=
  { id := 1, userId := 1, title := "t", timeOfDay := some "25:00",
    recurrence := .DAILY, isTemplate := true }

/-- Store holding only the template c1tpl, no instance, no faults. -/
def c1store : S := { rows := [c1tpl], nextId := 2 }

/-- C1, counterexample.  A user with exactly one active daily template
(timeOfDay "25:00") and no instance for today: after two list calls the
store holds zero generated instances whose dueAt lies in today's window
(each call materializes a row whose dueAt lands on the next day, so the
probe never finds it and a duplicate is created on every call), refuting
the claim that exactly one such instance is left for any N of 1 or more. -/
theorem C1_overflow_template_not_idempotent :
    c1store.rows.filter (dailyTplB 1) = [c1tpl] ∧
    countInst 1 1 0 c1store = 0 ∧
    countInst 1 1 0 (iterGET 1 none 200 0 2 c1store) = 0 ∧
    (iterGET 1 none 200 0 2 c1store).rows.length = 3 := by decide

/-- A daily template due at half past midnight. -/
def c2tpl : Todo :=
  { id := 1, userId := 1, title := "t", timeOfDay := some "00:30",
    recurrence := .DAILY, isTemplate := true }

/-- C2, counterexample.  The template's timeOfDay "00:30" is well formed,
yet the generated instance's dueAt is minute 570 of the day (09:30), not
minute 30 (00:30): the hour component 0 is falsy in JavaScript, so the
code falls back to hour 9 even though timeOfDay is neither absent nor
malformed. -/
theorem C2_zero_hour_falls_back_to_nine :
    (((handleGET 1 none 200 0 { rows := [c2tpl], nextId := 2 }).2.rows.filter
        (fun r => decide (r.templateId = some 1))).map (fun r => r.dueAt)) = [some 570] ∧
    (570 : Int) ≠ 30 := by decide

/-- C4, failing-input theorem.  Store with template (id 1) and its
generated instance (id 2); the first store mutation succeeds and the
second fails.  Deleting the instance removes the template, then the
deleteMany of the siblings throws: the request surfaces a 500, but the
store is NOT rolled back — the template is gone while the orphaned
instance survives, contradicting all-or-nothing cascade semantics. -/
theorem C4_partial_cascade_not_rolled_back :
    handleDELETE 1 2
        { rows := [{ id := 1, userId := 1, title := "t", timeOfDay := some "07:30",
                     recurrence := .DAILY, isTemplate := true },
                   { id := 2, userId := 1, title := "t", dueAt := some 450,
                     templateId := some 1 }],
          nextId := 3, faults := [true, false] } =
      (.internalError,
       { rows := [{ id := 2, userId := 1, title := "t", dueAt := some 450,
                    templateId := some 1 }],
         nextId := 3, faults := [] }) ∧
    [({ id := 2, userId := 1, title := "t", dueAt := some 450,
        templateId := some 1 } : Todo)] ≠
      [({ id := 1, userId := 1, title := "t", timeOfDay := some "07:30",
          recurrence := .DAILY, isTemplate := true } : Todo),
       { id := 2, userId := 1, title := "t", dueAt := some 450,
         templateId := some 1 }] := by decide

/-- C7, failing-input theorem.  Store with one unmaterialized daily
template and one existing one-off todo; the single create of the
reconciliation pass fails.  The whole GET request returns a 500 and no
listing at all, instead of isolating the failure and returning the
one-off todo that does exist. -/
theorem C7_reconcile_failure_fails_whole_listing :
    handleGET 1 none 200 0
        { rows := [{ id := 1, userId := 1, title := "t", timeOfDay := some "07:00",
                     recurrence := .DAILY, isTemplate := true },
                   { id := 2, userId := 1, title := "milk", dueAt := some 540 }],
          nextId := 3, faults := [false] } =
      (.internalError,
       { rows := [{ id := 1, userId := 1, title := "t", timeOfDay := some "07:00",
                    recurrence := .DAILY, isTemplate := true },
                  { id := 2, userId := 1, title := "milk", dueAt := some 540 }],
         nextId := 3, faults := [] }) := by decide

/-- A generated instance of some template (id 7), satisfying both shape
invariants. -/
def c5row : Todo :=
  { id := 1, userId := 1, title := "t", dueAt := some 450,
    recurrence := .NONE, isTemplate := false, templateId := some 7 }

/-- C5, counterexample.  The PUT whitelist writes isTemplate verbatim:
updating the generated instance c5row with isTemplate := true yields a
record with isTemplate = true, recurrence = NONE and templateId = 7,
violating both shape implications, so the update operation does not
preserve them. -/
theorem C5_update_breaks_shape_invariants :
    shapeInvB c5row = true ∧
    handlePUT 1 { id := 1, isTemplate := some true } 0 { rows := [c5row], nextId := 2 } =
      (.okTodo { c5row with isTemplate := true },
       { rows := [{ c5row with isTemplate := true }], nextId := 2 }) ∧
    shapeInvB { c5row with isTemplate := true } = false := by decide

/-- One-off todo due yesterday at 23:00 (minute 1380 of day 0). -/
def c6a : Todo := { id := 1, userId := 1, title := "a", dueAt := some 1380 }

/-- One-off todo due today at 09:00 (minute 540 of day 1). -/
def c6b : Todo := { id := 2, userId := 1, title := "b", dueAt := some 1980 }

/-- C6, counterexample.  The listing query has no day filter, and the
comparator subtracts full getTime() values: with one instance due
yesterday 23:00 and one due today 09:00, the listing returns the
23:00 one first, although its time-of-day component (1380) is larger
than the other's (540) — the sort is by full datetime, not purely by
time-of-day. -/
theorem C6_sorted_by_full_datetime_not_time_of_day :
    (handleGET 1 none 200 1 { rows := [c6a, c6b], nextId := 3 }).1 =
      .okList [c6a, c6b] ∧
    (c6a.dueAt.getD 0).emod 1440 = 1380 ∧
    (c6b.dueAt.getD 0).emod 1440 = 540 ∧
    ¬((1380 : Int) ≤ 540) := by decide

/-- C8, counterexample.  A one-off create at wall-clock 10:37 (minute 637)
with explicit timeOfDay "18:00": the stored timeOfDay is "18:00" but the
stored dueAt is minute 1117 of the day (18:37), not 1080 (18:00) — the
minute component 0 of the explicit time is falsy, so the code substitutes
the current wall-clock minutes.  The claim requires dueAt to equal today
at the explicit time. -/
theorem C8_explicit_time_minutes_overridden :
    (handlePOST 1 { title := "Buy milk", timeOfDay := some "18:00" } 637
        { rows := [], nextId := 1 }).2.rows.map (fun r => (r.timeOfDay, r.dueAt)) =
      [(some "18:00", some 1117)] ∧
    (1117 : Int) ≠ 1080 := by decide

/-- A record owned by user 2. -/
def c9row : Todo := { id := 5, userId := 2, title := "b" }

/-- C9, counterexample.  An update issued by user 1 naming user 2's
record id leaves the store untouched but surfaces as a 500 internal
error (Prisma P2025 reaches the generic catch), not as a 404 not-found
as the claim states; the delete path of the same request id does answer
404. -/
theorem C9_update_foreign_id_is_500_not_404 :
    handlePUT 1 { id := 5, completed := some true } 0 { rows := [c9row], nextId := 6 } =
      (.internalError, { rows := [c9row], nextId := 6 }) ∧
    Resp.status .internalError = 500 ∧
    handleDELETE 1 5 { rows := [c9row], nextId := 6 } =
      (.notFound, { rows := [c9row], nextId := 6 }) ∧
    Resp.status .notFound = 404 ∧
    (500 : Nat) ≠ 404 := by decide

/-! Structure lemmas about the store primitives. -/

/-- The state component of a store call result, whether it returned or
threw. -/
def exceptState (e : Except S S) : S :=
  match e with
  | .ok s => s
  | .error s => s

theorem takeFault_of_nil (s : S) (h : s.faults = []) : takeFault s = (true, s) := by
  simp [takeFault, h]

theorem takeFault_rows (s : S) : ((takeFault s).2).rows = s.rows := by
  unfold takeFault
  cases h : s.faults <;> simp

theorem takeFault_nextId (s : S) : ((takeFault s).2).nextId = s.nextId := by
  unfold takeFault
  cases h : s.faults <;> simp

theorem createRow_of_nil (mk : Nat → Todo) (s : S) (h : s.faults = []) :
    createRow mk s =
      .ok (mk s.nextId, { s with rows := s.rows ++ [mk s.nextId], nextId := s.nextId + 1 }) := by
  simp [createRow, takeFault_of_nil s h]

theorem createRow_cases (mk : Nat → Todo) (s : S) :
    (∃ s₁, createRow mk s = .error s₁ ∧ s₁.rows = s.rows ∧ s₁.nextId = s.nextId) ∨
    (∃ s₁, createRow mk s = .ok (mk s.nextId, s₁) ∧
      s₁.rows = s.rows ++ [mk s.nextId] ∧ s₁.nextId = s.nextId + 1) := by
  unfold createRow
  rcases hb : takeFault s with ⟨ok, s₁⟩
  have hrows : s₁.rows = s.rows := by rw [← takeFault_rows s, hb]
  have hnext : s₁.nextId = s.nextId := by rw [← takeFault_nextId s, hb]
  cases ok with
  | false => exact .inl ⟨s₁, by simp, hrows, hnext⟩
  | true =>
    refine .inr ⟨{ s₁ with rows := s₁.rows ++ [mk s₁.nextId], nextId := s₁.nextId + 1 }, ?_, ?_, ?_⟩
    · simp [hnext]
    · simp [hrows, hnext]
    · simp [hnext]

/-! Lemmas about the reconciliation loop. -/

theorem reconcile_nop (u : Nat) (start : Int) :
    ∀ (tpls : List Todo) (s : S),
      (∀ tpl ∈ tpls, ∃ r ∈ s.rows, instPredB u start tpl.id r) →
      reconcile u start tpls s = .ok s := by
  intro tpls
  induction tpls with
  | nil => intro s _; rfl
  | cons tpl rest ih =>
    intro s h
    have hex : ∃ r ∈ s.rows, instPredB u start tpl.id r := h tpl (by simp)
    have hsome : (s.rows.find? (instPredB u start tpl.id)).isSome :=
      List.find?_isSome.mpr hex
    rcases Option.isSome_iff_exists.mp hsome with ⟨r, hr⟩
    have := ih s (fun t ht => h t (by simp [ht]))
    simpa [reconcile, hr] using this

theorem reconcile_nofaults (u : Nat) (start : Int) :
    ∀ (tpls : List Todo) (s : S), s.faults = [] →
      ∃ (new : List Todo) (s' : S),
        reconcile u start tpls s = .ok s' ∧
        s'.rows = s.rows ++ new ∧ s'.nextId = s.nextId + new.length ∧ s'.faults = [] ∧
        ∀ x ∈ new, x.userId = u ∧ x.isTemplate = false ∧ x.recurrence = Recurrence.NONE ∧
          ∃ tid, x.templateId = some tid := by
  intro tpls
  induction tpls with
  | nil =>
    intro s hf
    exact ⟨[], s, rfl, by simp, by simp, hf, by simp⟩
  | cons tpl rest ih =>
    intro s hf
    cases hfind : s.rows.find? (instPredB u start tpl.id) with
    | some r =>
      rcases ih s hf with ⟨new, s', hrec, h1, h2, h3, h4⟩
      exact ⟨new, s', by simpa [reconcile, hfind] using hrec, h1, h2, h3, h4⟩
    | none =>
      have hc := createRow_of_nil (materialize u start tpl) s hf
      set s₁ : S := { s with rows := s.rows ++ [materialize u start tpl s.nextId],
                             nextId := s.nextId + 1 } with hs₁
      have hf₁ : s₁.faults = [] := hf
      rcases ih s₁ hf₁ with ⟨new, s', hrec, h1, h2, h3, h4⟩
      refine ⟨materialize u start tpl s.nextId :: new, s', ?_, ?_, ?_, h3, ?_⟩
      · simpa [reconcile, hfind, hc] using hrec
      · simp [h1, hs₁]
      · simp [h2, hs₁]; omega
      · intro x hx
        rcases List.mem_cons.mp hx with hx | hx
        · subst hx
          exact ⟨rfl, rfl, rfl, tpl.id, rfl⟩
        · exact h4 x hx

/-! Lemmas about handleGET and the instance count. -/

theorem handleGET_of_reconcile_ok (u : Nat) (c : Option Bool) (lim d : Nat) (s s₁ : S)
    (h : reconcile u ((d : Int) * 1440) (s.rows.filter (dailyTplB u)) s = .ok s₁) :
    handleGET u c lim d s =
      (.okList (sortByTime ((s₁.rows.filter (listPredB u c)).take lim)), s₁) := by
  simp [handleGET, h]

theorem handleGET_of_reconcile_error (u : Nat) (c : Option Bool) (lim d : Nat) (s s₁ : S)
    (h : reconcile u ((d : Int) * 1440) (s.rows.filter (dailyTplB u)) s = .error s₁) :
    handleGET u c lim d s = (.internalError, s₁) := by
  simp [handleGET, h]

theorem countInst_eq_zero_iff (u tid d : Nat) (s : S) :
    countInst u tid d s = 0 ↔
      s.rows.find? (instPredB u ((d : Int) * 1440) tid) = none := by
  rw [countInst, List.length_eq_zero, List.filter_eq_nil_iff, List.find?_eq_none]

theorem find?_isSome_of_countInst_pos (u tid d : Nat) (s : S)
    (h : countInst u tid d s ≠ 0) :
    (s.rows.find? (instPredB u ((d : Int) * 1440) tid)).isSome := by
  apply List.find?_isSome.mpr
  have hlen : 0 < (s.rows.filter (instPredB u ((d : Int) * 1440) tid)).length := by
    unfold countInst at h
    omega
  rcases List.exists_mem_of_length_pos hlen with ⟨x, hx⟩
  exact ⟨x, List.mem_of_mem_filter hx, List.of_mem_filter hx⟩

theorem instPredB_materialize (u : Nat) (start : Int) (t : Todo) (i : Nat)
    (hin : 0 ≤ materializeOffset t ∧ materializeOffset t ≤ 1439) :
    instPredB u start t.id (materialize u start t i) = true := by
  simp [instPredB, materialize, inWindowB]
  omega

theorem dailyTplB_materialize (u u' : Nat) (start : Int) (t : Todo) (i : Nat) :
    dailyTplB u' (materialize u start t i) = false := by
  simp [dailyTplB, materialize]

/-- A single GET against a store whose only daily template of user u is t,
with no instance of t for the day yet: exactly the materialized row is
appended. -/
theorem GET_materializes_single (s : S) (u d lim : Nat) (c : Option Bool) (t : Todo)
    (hf : s.faults = []) (ht : s.rows.filter (dailyTplB u) = [t])
    (h0 : countInst u t.id d s = 0) :
    (handleGET u c lim d s).2 =
      { s with rows := s.rows ++ [materialize u ((d : Int) * 1440) t s.nextId],
               nextId := s.nextId + 1 } := by
  have hfind := (countInst_eq_zero_iff u t.id d s).mp h0
  have hc := createRow_of_nil (materialize u ((d : Int) * 1440) t) s hf
  have hrec : reconcile u ((d : Int) * 1440) (s.rows.filter (dailyTplB u)) s =
      .ok { s with rows := s.rows ++ [materialize u ((d : Int) * 1440) t s.nextId],
                   nextId := s.nextId + 1 } := by
    rw [ht]
    simp [reconcile, hfind, hc]
  rw [handleGET_of_reconcile_ok u c lim d s _ hrec]

/-- A GET whose every daily template already has an instance for the day
leaves the store state unchanged. -/
theorem GET_nop (s : S) (u d lim : Nat) (c : Option Bool)
    (hall : ∀ tpl ∈ s.rows.filter (dailyTplB u),
      ∃ r ∈ s.rows, instPredB u ((d : Int) * 1440) tpl.id r) :
    (handleGET u c lim d s).2 = s := by
  have hrec := reconcile_nop u ((d : Int) * 1440) (s.rows.filter (dailyTplB u)) s hall
  rw [handleGET_of_reconcile_ok u c lim d s s hrec]

theorem iterGET_fixed (u : Nat) (c : Option Bool) (lim d : Nat) (s : S)
    (h : (handleGET u c lim d s).2 = s) :
    ∀ N, iterGET u c lim d N s = s := by
  intro N
  induction N with
  | zero => rfl
  | succ n ih => simpa [iterGET, h] using ih

theorem countInst_append_single (u tid d : Nat) (s : S) (x : Todo)
    (s' : S) (hs' : s'.rows = s.rows ++ [x]) :
    countInst u tid d s' =
      countInst u tid d s + (if instPredB u ((d : Int) * 1440) tid x then 1 else 0) := by
  unfold countInst
  rw [hs', List.filter_append]
  cases h : instPredB u ((d : Int) * 1440) tid x <;> simp [h]

/-- C1, amended claim.  For a user whose store contains exactly one
active daily template t, provided the materialized time offset of t lies
inside the day (0 to 1439 minutes — true of every template whose
timeOfDay is absent or a well-formed wall-clock HH:MM), and no instance
of t exists for today, N sequential list calls with no store faults
leave exactly one generated instance of t with dueAt inside today, for
every N of at least 1. -/
theorem C1_idempotent_materialization (s : S) (u d lim N : Nat) (c : Option Bool) (t : Todo)
    (hf : s.faults = [])
    (ht : s.rows.filter (dailyTplB u) = [t])
    (hin : 0 ≤ materializeOffset t ∧ materializeOffset t ≤ 1439)
    (h0 : countInst u t.id d s = 0)
    (hN : 1 ≤ N) :
    countInst u t.id d (iterGET u c lim d N s) = 1 := by
  rcases Nat.exists_eq_add_of_le hN with ⟨M, hM⟩
  subst hM
  set mat := materialize u ((d : Int) * 1440) t s.nextId with hmat
  set s₁ : S := { s with rows := s.rows ++ [mat], nextId := s.nextId + 1 } with hs₁
  have hstep : (handleGET u c lim d s).2 = s₁ := GET_materializes_single s u d lim c t hf ht h0
  have hpred : instPredB u ((d : Int) * 1440) t.id mat = true :=
    instPredB_materialize u ((d : Int) * 1440) t s.nextId hin
  have hcount₁ : countInst u t.id d s₁ = 1 := by
    rw [countInst_append_single u t.id d s mat s₁ rfl, h0, hpred]
    simp
  have htpl₁ : s₁.rows.filter (dailyTplB u) = [t] := by
    have hrows : s₁.rows = s.rows ++ [mat] := rfl
    rw [hrows, List.filter_append, ht]
    simp [hmat, dailyTplB_materialize]
  have hfix : (handleGET u c lim d s₁).2 = s₁ := by
    apply GET_nop
    intro tpl htpl
    rw [htpl₁] at htpl
    rcases List.mem_singleton.mp htpl with rfl
    exact ⟨mat, by simp [hs₁], hpred⟩
  have hiter : iterGET u c lim d (1 + M) s = iterGET u c lim d M s₁ := by
    have : 1 + M = M + 1 := Nat.add_comm 1 M
    rw [this]
    simp [iterGET, hstep]
  rw [hiter, iterGET_fixed u c lim d s₁ hfix M, hcount₁]

/-- Witness template: a daily template due 07:30. -/
def c1wtpl : Todo :=
  { id := 1, userId := 1, title := "Stretch", timeOfDay := some "07:30",
    recurrence := .DAILY, isTemplate := true }

/-- Witness store for the idempotence theorem. -/
def c1wstore : S := { rows := [c1wtpl], nextId := 2 }

theorem C1_idempotent_materialization_witness :
    c1wstore.faults = [] ∧
    c1wstore.rows.filter (dailyTplB 1) = [c1wtpl] ∧
    countInst 1 1 0 c1wstore = 0 ∧
    countInst 1 1 0 (iterGET 1 none 200 0 3 c1wstore) = 1 :=
  ⟨rfl, by decide, by decide,
    C1_idempotent_materialization c1wstore 1 0 200 3 none c1wtpl rfl (by decide)
      (by decide) (by decide) (by decide)⟩

theorem materializeOffset_of_none (t : Todo) (h : t.timeOfDay = none) :
    materializeOffset t = 540 := by
  unfold materializeOffset
  rw [h]
  decide

/-- C2, amended claim.  For a daily template t (the user's only one) with
no instance for the day: the list call appends exactly one row copying
title, notes and tags from t, with recurrence NONE, isTemplate false,
templateId = t.id, completed false, no timeOfDay, and dueAt =
startOfDay + 60*h + m where the components are parsed from
(t.timeOfDay || "09:00") and each falls back per JavaScript truthiness:
the hour to 9 when the parsed hour is 0 or NaN, the minute to 0 when the
parsed minute is 0 or NaN.  An absent timeOfDay therefore gives exactly
09:00; a zero hour or zero minute component also triggers its fallback
even though the string is well-formed. -/
theorem C2_materialized_instance_fields (s : S) (u d lim : Nat) (c : Option Bool) (t : Todo)
    (hf : s.faults = [])
    (ht : s.rows.filter (dailyTplB u) = [t])
    (h0 : countInst u t.id d s = 0) :
    (handleGET u c lim d s).2.rows =
      s.rows ++ [{ id := s.nextId, userId := u, title := t.title, notes := t.notes,
                   tags := t.tags, completed := false,
                   dueAt := some ((d : Int) * 1440 + materializeOffset t),
                   timeOfDay := none, recurrence := .NONE, isTemplate := false,
                   templateId := some t.id }] ∧
    (t.timeOfDay = none → materializeOffset t = 540) ∧
    (∀ hh mm : Int, parseHM (jsOrStr t.timeOfDay "09:00") = (some hh, some mm) →
      materializeOffset t = 60 * (if hh = 0 then 9 else hh) + (if mm = 0 then 0 else mm)) := by
  refine ⟨?_, fun h => materializeOffset_of_none t h, ?_⟩
  · rw [GET_materializes_single s u d lim c t hf ht h0]
    rfl
  · intro hh mm hp
    unfold materializeOffset
    rw [hp]
    simp [jsOr]

/-- Witness template for the materializer field theorem. -/
def c2wtpl : Todo :=
  { id := 1, userId := 1, title := "Stretch", notes := some "hold",
    tags := ["am"], timeOfDay := some "07:30", recurrence := .DAILY,
    isTemplate := true }

/-- Witness store for the materializer field theorem. -/
def c2wstore : S := { rows := [c2wtpl], nextId := 2 }

theorem C2_materialized_instance_fields_witness :
    c2wstore.faults = [] ∧
    ((handleGET 1 none 200 0 c2wstore).2.rows =
      c2wstore.rows ++
        [{ id := c2wstore.nextId, userId := 1, title := c2wtpl.title,
           notes := c2wtpl.notes, tags := c2wtpl.tags, completed := false,
           dueAt := some ((0 : Int) * 1440 + materializeOffset c2wtpl),
           timeOfDay := none, recurrence := .NONE, isTemplate := false,
           templateId := some c2wtpl.id }] ∧
    (c2wtpl.timeOfDay = none → materializeOffset c2wtpl = 540) ∧
    (∀ hh mm : Int, parseHM (jsOrStr c2wtpl.timeOfDay "09:00") = (some hh, some mm) →
      materializeOffset c2wtpl = 60 * (if hh = 0 then 9 else hh) + (if mm = 0 then 0 else mm))) ∧
    materializeOffset c2wtpl = 450 :=
  ⟨rfl,
   C2_materialized_instance_fields c2wstore 1 0 200 none c2wtpl rfl (by decide) (by decide),
   by decide⟩

/-! Lemmas about the delete primitives. -/

theorem find?_eq_some_of_unique (p : Todo → Bool) (r : Todo) :
    ∀ l : List Todo, (l.map Todo.id).Nodup → r ∈ l → p r = true →
      (∀ x, p x = true → x.id = r.id) → l.find? p = some r := by
  intro l
  induction l with
  | nil => intro _ hr; exact absurd hr (List.not_mem_nil r)
  | cons a rest ih =>
    intro hnd hr hpr hkey
    rw [List.map_cons, List.nodup_cons] at hnd
    cases hpa : p a with
    | true =>
      have har : a = r := by
        rcases List.mem_cons.mp hr with h | h
        · exact h.symm
        · exfalso
          apply hnd.1
          rw [hkey a hpa]
          exact List.mem_map_of_mem Todo.id h
      rw [List.find?_cons, hpa]
      rw [har]
    | false =>
      have hra : r ≠ a := fun h => by rw [h, hpa] at hpr; exact Bool.false_ne_true hpr
      have hrrest : r ∈ rest := by
        rcases List.mem_cons.mp hr with h | h
        · exact absurd h hra
        · exact h
      rw [List.find?_cons, hpa]
      exact ih hnd.2 hrrest hpr hkey

theorem removeFirst_eq_filter (p : Todo → Bool) (k : Nat)
    (hkey : ∀ x, p x = true → x.id = k) :
    ∀ l : List Todo, (l.map Todo.id).Nodup →
      removeFirst p l = l.filter (fun x => !(p x)) := by
  intro l
  induction l with
  | nil => intro _; rfl
  | cons a rest ih =>
    intro hnd
    rw [List.map_cons, List.nodup_cons] at hnd
    cases hpa : p a with
    | true =>
      have hrest : rest.filter (fun x => !(p x)) = rest := by
        apply List.filter_eq_self.mpr
        intro x hx
        cases hpx : p x with
        | false => rfl
        | true =>
          exfalso
          apply hnd.1
          rw [hkey a hpa, ← hkey x hpx]
          exact List.mem_map_of_mem Todo.id hx
      simp [removeFirst, hpa, hrest]
    | false =>
      simp [removeFirst, hpa, ih hnd.2]

theorem deleteRow_of_exists (i u : Nat) (s : S)
    (hf : s.faults = []) (hnd : (s.rows.map Todo.id).Nodup)
    (hex : ∃ x ∈ s.rows, x.id = i ∧ x.userId = u) :
    deleteRow i u s =
      .ok { s with rows :=
        s.rows.filter (fun x => !(decide (x.id = i) && decide (x.userId = u))) } := by
  rcases hex with ⟨x, hx, hxi, hxu⟩
  have hfind : s.rows.find? (fun r => decide (r.id = i) && decide (r.userId = u)) = some x := by
    apply find?_eq_some_of_unique _ x s.rows hnd hx (by simp [hxi, hxu])
    intro y hy
    simp at hy
    rw [hy.1, hxi]
  have hrm := removeFirst_eq_filter (fun r => decide (r.id = i) && decide (r.userId = u)) i
    (by intro y hy; simp at hy; exact hy.1) s.rows hnd
  simp [deleteRow, takeFault_of_nil s hf, hfind, hrm]

theorem deleteRow_of_missing (i u : Nat) (s : S)
    (hf : s.faults = [])
    (hmiss : ∀ x ∈ s.rows, ¬(x.id = i ∧ x.userId = u)) :
    deleteRow i u s = .error s := by
  have hfind : s.rows.find? (fun r => decide (r.id = i) && decide (r.userId = u)) = none := by
    apply List.find?_eq_none.mpr
    intro x hx
    simp
    intro hxi
    exact fun hxu => hmiss x hx ⟨hxi, hxu⟩
  simp [deleteRow, takeFault_of_nil s hf, hfind]

theorem deleteManyRows_of_nil (p : Todo → Bool) (s : S) (hf : s.faults = []) :
    deleteManyRows p s = .ok { s with rows := s.rows.filter (fun r => !(p r)) } := by
  simp [deleteManyRows, takeFault_of_nil s hf]

theorem filter_filter_cascade (rows : List Todo) (tid u : Nat) :
    (rows.filter (fun x => !(decide (x.id = tid) && decide (x.userId = u)))).filter
        (fun x => !(decide (x.templateId = some tid) && decide (x.userId = u))) =
      rows.filter (fun x =>
        !((decide (x.id = tid) || decide (x.templateId = some tid)) && decide (x.userId = u))) := by
  rw [List.filter_filter]
  apply List.filter_congr
  intro x _
  by_cases h1 : x.id = tid <;> by_cases h2 : x.templateId = some tid <;>
    by_cases h3 : x.userId = u <;> simp [h1, h2, h3]

/-- C3.  Cascade semantics of the delete operation, for a store with
distinct ids and no store faults, on a record r owned by the caller u:
deleting a template removes exactly the template and every instance
whose templateId points at it; deleting a generated instance (whose
template still exists) removes exactly the same set — its template and
every sibling sharing the templateId, itself included; deleting a plain
one-off removes exactly that record. -/
theorem C3_cascade_delete (s : S) (u : Nat) (r : Todo)
    (hf : s.faults = []) (hnd : (s.rows.map Todo.id).Nodup)
    (hr : r ∈ s.rows) (hu : r.userId = u) :
    (r.isTemplate = true → r.templateId = none →
      handleDELETE u r.id s =
        (.okDeleted,
         { s with rows := s.rows.filter (fun x =>
             !((decide (x.id = r.id) || decide (x.templateId = some r.id)) &&
               decide (x.userId = u))) })) ∧
    (∀ tid, r.templateId = some tid →
      (∃ t ∈ s.rows, t.id = tid ∧ t.userId = u) →
      handleDELETE u r.id s =
        (.okDeleted,
         { s with rows := s.rows.filter (fun x =>
             !((decide (x.id = tid) || decide (x.templateId = some tid)) &&
               decide (x.userId = u))) })) ∧
    (r.isTemplate = false → r.templateId = none →
      handleDELETE u r.id s =
        (.okDeleted,
         { s with rows := s.rows.filter (fun x =>
             !(decide (x.id = r.id) && decide (x.userId = u))) })) := by
  have hfind : s.rows.find? (fun x => decide (x.id = r.id) && decide (x.userId = u)) = some r := by
    apply find?_eq_some_of_unique _ r s.rows hnd hr (by simp [hu])
    intro y hy
    simp at hy
    exact hy.1
  refine ⟨?_, ?_, ?_⟩
  · intro hit htid
    have h2 := deleteManyRows_of_nil (fun x => (decide (x.id = r.id) || decide (x.templateId = some r.id)) && decide (x.userId = u)) s hf
    simp [handleDELETE, hfind, htid, hit, h2]
  · intro tid htid hex
    have h1 := deleteRow_of_exists tid u s hf hnd hex
    have h2 := deleteManyRows_of_nil (fun x => decide (x.templateId = some tid) && decide (x.userId = u)) ({ s with rows := s.rows.filter (fun x => !(decide (x.id = tid) && decide (x.userId = u))) }) hf
    have h3 := filter_filter_cascade s.rows tid u
    simp only [handleDELETE, hfind, htid, h1, h2]
    simp [h3]
    apply List.filter_congr
    intro x _
    by_cases e1 : x.id = tid <;> by_cases e2 : x.templateId = some tid <;>
      by_cases e3 : x.userId = u <;> simp [e1, e2, e3]
  · intro hit htid
    have h1 := deleteRow_of_exists r.id u s hf hnd ⟨r, hr, rfl, hu⟩
    simp [handleDELETE, hfind, htid, hit, h1]

/-- Witness data: template, today instance, other-day instance, one-off. -/
def c3T : Todo :=
  { id := 1, userId := 1, title := "t", timeOfDay := some "07:30",
    recurrence := .DAILY, isTemplate := true }

/-- Witness: generated instance of c3T for today. -/
def c3I1 : Todo := { id := 2, userId := 1, title := "t", dueAt := some 450, templateId := some 1 }

/-- Witness: generated instance of c3T for another day. -/
def c3I2 : Todo := { id := 3, userId := 1, title := "t", dueAt := some 1890, templateId := some 1 }

/-- Witness: an unrelated one-off todo. -/
def c3O : Todo := { id := 4, userId := 1, title := "milk", dueAt := some 540 }

/-- Witness store for the cascade theorem. -/
def c3store : S := { rows := [c3T, c3I1, c3I2, c3O], nextId := 5 }

theorem C3_cascade_delete_witness :
    handleDELETE 1 2 c3store = (.okDeleted, { c3store with rows := [c3O] }) ∧
    handleDELETE 1 1 c3store = (.okDeleted, { c3store with rows := [c3O] }) ∧
    handleDELETE 1 4 c3store = (.okDeleted, { c3store with rows := [c3T, c3I1, c3I2] }) :=
  ⟨(C3_cascade_delete c3store 1 c3I1 rfl (by decide) (by decide) rfl).2.1 1 rfl
      ⟨c3T, by decide, rfl, rfl⟩,
   (C3_cascade_delete c3store 1 c3T rfl (by decide) (by decide) rfl).1 rfl rfl,
   (C3_cascade_delete c3store 1 c3O rfl (by decide) (by decide) rfl).2.2 rfl rfl⟩

/-- C10.  Deleting a generated instance whose template row no longer
exists for that user: the userId-scoped delete of the missing template
throws P2025 before any row is removed, the outer catch answers 500,
and the store is left exactly unchanged — the orphaned instance cannot
be removed through the delete operation. -/
theorem C10_orphan_instance_undeletable (s : S) (u : Nat) (r : Todo) (tid : Nat)
    (hf : s.faults = []) (hnd : (s.rows.map Todo.id).Nodup)
    (hr : r ∈ s.rows) (hu : r.userId = u)
    (htid : r.templateId = some tid)
    (hmiss : ∀ x ∈ s.rows, ¬(x.id = tid ∧ x.userId = u)) :
    handleDELETE u r.id s = (.internalError, s) := by
  have hfind : s.rows.find? (fun x => decide (x.id = r.id) && decide (x.userId = u)) = some r := by
    apply find?_eq_some_of_unique _ r s.rows hnd hr (by simp [hu])
    intro y hy
    simp at hy
    exact hy.1
  have h1 := deleteRow_of_missing tid u s hf hmiss
  simp [handleDELETE, hfind, htid, h1]

/-- Witness orphan instance: templateId 9 names no existing row. -/
def c10orphan : Todo := { id := 2, userId := 1, title := "t", dueAt := some 450, templateId := some 9 }

/-- Witness store for the orphan-delete theorem. -/
def c10store : S := { rows := [c10orphan], nextId := 3 }

theorem C10_orphan_instance_undeletable_witness :
    handleDELETE 1 2 c10store = (.internalError, c10store) :=
  C10_orphan_instance_undeletable c10store 1 c10orphan 9 rfl (by decide) (by decide) rfl rfl
    (by decide)

/-! Order-theoretic lemmas about the listing sort. -/

/-- The non-strict order induced by the GET comparator: a may come before
b when b is not strictly earlier than a (missing dueAt = Infinity). -/
def dueLE (a b : Todo) : Prop := keyLT (dueKey b) (dueKey a) = false

theorem keyLT_asymm (a b : Option Int) (h : keyLT a b = true) : keyLT b a = false := by
  cases a <;> cases b <;> simp_all [keyLT] <;> omega

theorem keyLT_neg_trans (a b c : Option Int)
    (h1 : keyLT b a = false) (h2 : keyLT c b = false) : keyLT c a = false := by
  cases a <;> cases b <;> cases c <;> simp_all [keyLT] <;> omega

theorem mem_insertByTime (x z : Todo) :
    ∀ l : List Todo, z ∈ insertByTime x l ↔ z = x ∨ z ∈ l := by
  intro l
  induction l with
  | nil => simp [insertByTime]
  | cons y rest ih =>
    by_cases h : keyLT (dueKey y) (dueKey x) = true
    · simp [insertByTime, h, ih]
      tauto
    · simp [insertByTime, h]

theorem pairwise_insertByTime (x : Todo) :
    ∀ l : List Todo, List.Pairwise dueLE l → List.Pairwise dueLE (insertByTime x l) := by
  intro l
  induction l with
  | nil => intro _; simp [insertByTime, List.Pairwise]
  | cons y rest ih =>
    intro hp
    rw [List.pairwise_cons] at hp
    by_cases h : keyLT (dueKey y) (dueKey x) = true
    · rw [insertByTime, if_pos h, List.pairwise_cons]
      constructor
      · intro z hz
        rcases (mem_insertByTime x z rest).mp hz with rfl | hz
        · exact keyLT_asymm _ _ h
        · exact hp.1 z hz
      · exact ih hp.2
    · rw [insertByTime, if_neg h, List.pairwise_cons]
      have hxy : dueLE x y := by
        unfold dueLE
        exact Bool.not_eq_true _ ▸ (Bool.of_not_eq_true h)
      constructor
      · intro z hz
        rcases List.mem_cons.mp hz with rfl | hz
        · exact hxy
        · exact keyLT_neg_trans _ _ _ hxy (hp.1 z hz)
      · rw [List.pairwise_cons]
        exact hp

theorem perm_insertByTime (x : Todo) :
    ∀ l : List Todo, (insertByTime x l).Perm (x :: l) := by
  intro l
  induction l with
  | nil => simp [insertByTime]
  | cons y rest ih =>
    by_cases h : keyLT (dueKey y) (dueKey x) = true
    · rw [insertByTime, if_pos h]
      exact (ih.cons y).trans (List.Perm.swap x y rest)
    · rw [insertByTime, if_neg h]

theorem sortByTime_pairwise : ∀ l : List Todo, List.Pairwise dueLE (sortByTime l) := by
  intro l
  induction l with
  | nil => simp [sortByTime]
  | cons x rest ih => exact pairwise_insertByTime x (sortByTime rest) ih

theorem sortByTime_perm : ∀ l : List Todo, (sortByTime l).Perm l := by
  intro l
  induction l with
  | nil => simp [sortByTime]
  | cons x rest ih =>
    exact (perm_insertByTime x (sortByTime rest)).trans (ih.cons x)

theorem dueLE_none_right (a b : Todo) (h : dueLE a b) (ha : a.dueAt = none) :
    b.dueAt = none := by
  unfold dueLE dueKey at h
  rw [ha] at h
  cases hb : b.dueAt with
  | none => rfl
  | some v => rw [hb] at h; simp [keyLT] at h

/-- C6, amended claim.  For any store with no faults, the GET listing
returns a list sorted ascending by the full dueAt timestamp (missing
dueAt treated as infinitely late, hence placed after every record that
has one), and that list is a permutation of the limit-truncated filtered
row set.  The comparator uses the full datetime, so for same-day
instances this coincides with time-of-day order, but records from
different days are ordered by date first, not purely by time-of-day. -/
theorem C6_listing_sorted_by_dueAt (s : S) (u lim d : Nat) (c : Option Bool)
    (hf : s.faults = []) :
    ∃ L, (handleGET u c lim d s).1 = .okList L ∧
      List.Pairwise dueLE L ∧
      List.Pairwise (fun a b => a.dueAt = none → b.dueAt = none) L ∧
      L.Perm (((handleGET u c lim d s).2.rows.filter (listPredB u c)).take lim) := by
  rcases reconcile_nofaults u ((d : Int) * 1440) (s.rows.filter (dailyTplB u)) s hf with
    ⟨new, s', hrec, hrows, hnext, hfa, hprops⟩
  have hget := handleGET_of_reconcile_ok u c lim d s s' hrec
  refine ⟨sortByTime ((s'.rows.filter (listPredB u c)).take lim), ?_, ?_, ?_, ?_⟩
  · rw [hget]
  · exact sortByTime_pairwise _
  · exact (sortByTime_pairwise _).imp (fun h => dueLE_none_right _ _ h)
  · rw [hget]
    exact sortByTime_perm _

/-- Witness one-off due today 09:00. -/
def c6wA : Todo := { id := 3, userId := 1, title := "a", dueAt := some 540, timeOfDay := some "09:00" }

/-- Witness one-off due today 23:00. -/
def c6wB : Todo := { id := 2, userId := 1, title := "b", dueAt := some 1380, timeOfDay := some "23:00" }

/-- Witness one-off with no dueAt. -/
def c6wC : Todo := { id := 1, userId := 1, title := "c" }

/-- Witness store, deliberately out of order. -/
def c6wstore : S := { rows := [c6wC, c6wB, c6wA], nextId := 4 }

theorem C6_listing_sorted_by_dueAt_witness :
    c6wstore.faults = [] ∧
    (∃ L, (handleGET 1 none 200 0 c6wstore).1 = .okList L ∧
      List.Pairwise dueLE L ∧
      List.Pairwise (fun a b => a.dueAt = none → b.dueAt = none) L ∧
      L.Perm (((handleGET 1 none 200 0 c6wstore).2.rows.filter (listPredB 1 none)).take 200)) ∧
    (handleGET 1 none 200 0 c6wstore).1 = .okList [c6wA, c6wB, c6wC] :=
  ⟨rfl, C6_listing_sorted_by_dueAt c6wstore 1 200 0 none rfl, by decide⟩

/-- C8, amended claim.  For a valid create with no store fault: when
recurrence is DAILY or isTemplate is passed as true, the created record
is a template with isTemplate=true, recurrence=DAILY, timeOfDay equal to
the HH:MM of the supplied dueDate (falling back to the current instant),
no dueAt and no templateId.  Otherwise a one-off is created with
recurrence=NONE, isTemplate=false, timeOfDay the explicit value (or the
current HH:MM), and dueAt = today at hour/minute parsed from that string
with per-component JavaScript-falsy fallbacks to the CURRENT hour and
minute: a parsed component that is 0 or NaN is replaced by the current
wall-clock component, so dueAt equals today at the explicit time only
when both parsed components are nonzero numbers. -/
theorem C8_post_creation_shape (u : Nat) (b : PostBody) (now : Int) (s : S)
    (hf : s.faults = []) (htitle : b.title ≠ "") :
    ((b.recurrence = some Recurrence.DAILY ∨ b.isTemplate = some true) →
      handlePOST u b now s =
        (.createdTodo
           { id := s.nextId, userId := u, title := b.title, notes := b.notes,
             timeOfDay := some (fmtHM (b.dueDate.getD now)), recurrence := .DAILY,
             isTemplate := true, tags := b.tags.getD [], completed := false,
             dueAt := none, templateId := none },
         { s with nextId := s.nextId + 1,
                  rows := s.rows ++
                    [{ id := s.nextId, userId := u, title := b.title, notes := b.notes,
                       timeOfDay := some (fmtHM (b.dueDate.getD now)), recurrence := .DAILY,
                       isTemplate := true, tags := b.tags.getD [], completed := false,
                       dueAt := none, templateId := none }] })) ∧
    (b.recurrence ≠ some Recurrence.DAILY → b.isTemplate ≠ some true →
      handlePOST u b now s =
        (.createdTodo
           { id := s.nextId, userId := u, title := b.title, notes := b.notes,
             dueAt := some (dayStart now +
               60 * jsOr (parseHM (jsOrStr b.timeOfDay (fmtHM now))).1 (hourOf now : Int) +
               jsOr (parseHM (jsOrStr b.timeOfDay (fmtHM now))).2 (minOf now : Int)),
             timeOfDay := some (jsOrStr b.timeOfDay (fmtHM now)), recurrence := .NONE,
             isTemplate := false, tags := b.tags.getD [],
             completed := b.completed.getD false, templateId := none },
         { s with nextId := s.nextId + 1,
                  rows := s.rows ++
                    [{ id := s.nextId, userId := u, title := b.title, notes := b.notes,
                       dueAt := some (dayStart now +
                         60 * jsOr (parseHM (jsOrStr b.timeOfDay (fmtHM now))).1 (hourOf now : Int) +
                         jsOr (parseHM (jsOrStr b.timeOfDay (fmtHM now))).2 (minOf now : Int)),
                       timeOfDay := some (jsOrStr b.timeOfDay (fmtHM now)), recurrence := .NONE,
                       isTemplate := false, tags := b.tags.getD [],
                       completed := b.completed.getD false, templateId := none }] })) := by
  constructor
  · intro h
    have hb : (decide (b.recurrence = some Recurrence.DAILY) ||
        decide (b.isTemplate = some true)) = true := by
      rcases h with h | h <;> simp [h]
    simp [handlePOST, htitle, hb, createRow_of_nil, hf]
  · intro h1 h2
    have hb : (decide (b.recurrence = some Recurrence.DAILY) ||
        decide (b.isTemplate = some true)) = false := by
      simp [h1, h2]
    simp [handlePOST, htitle, hb, createRow_of_nil, hf]

/-- Witness POST body creating a template. -/
def c8tb : PostBody := { title := "Stretch", recurrence := some .DAILY, dueDate := some 450 }

/-- Witness POST body creating a one-off with explicit time 18:30. -/
def c8ob : PostBody := { title := "Buy milk", timeOfDay := some "18:30" }

/-- Witness empty store. -/
def c8store : S := { rows := [], nextId := 1 }

theorem C8_post_creation_shape_witness :
    handlePOST 1 c8tb 637 c8store =
      (.createdTodo
         { id := 1, userId := 1, title := "Stretch", notes := none,
           timeOfDay := some "07:30", recurrence := .DAILY, isTemplate := true,
           tags := [], completed := false, dueAt := none, templateId := none },
       { rows := [{ id := 1, userId := 1, title := "Stretch", notes := none,
                    timeOfDay := some "07:30", recurrence := .DAILY, isTemplate := true,
                    tags := [], completed := false, dueAt := none, templateId := none }],
         nextId := 2 }) ∧
    handlePOST 1 c8ob 637 c8store =
      (.createdTodo
         { id := 1, userId := 1, title := "Buy milk", notes := none,
           dueAt := some 1110, timeOfDay := some "18:30", recurrence := .NONE,
           isTemplate := false, tags := [], completed := false, templateId := none },
       { rows := [{ id := 1, userId := 1, title := "Buy milk", notes := none,
                    dueAt := some 1110, timeOfDay := some "18:30", recurrence := .NONE,
                    isTemplate := false, tags := [], completed := false, templateId := none }],
         nextId := 2 }) :=
  ⟨(C8_post_creation_shape 1 c8tb 637 c8store rfl (by decide)).1 (Or.inl rfl),
   (C8_post_creation_shape 1 c8ob 637 c8store rfl (by decide)).2 (by decide) (by decide)⟩

/-! Row-effect lemmas for the mutating primitives. -/

theorem deleteRow_ok_rows (i u : Nat) (s s' : S) (h : deleteRow i u s = .ok s') :
    s'.rows = removeFirst (fun r => decide (r.id = i) && decide (r.userId = u)) s.rows := by
  unfold deleteRow at h
  rcases hb : takeFault s with ⟨ok, s₁⟩
  rw [hb] at h
  have hrows : s₁.rows = s.rows := by rw [← takeFault_rows s, hb]
  cases ok with
  | false => simp at h
  | true =>
    simp only [if_true] at h
    cases hfind : s₁.rows.find? (fun r => decide (r.id = i) && decide (r.userId = u)) with
    | some r =>
      rw [hfind] at h
      simp at h
      rw [← h, hrows]
    | none => rw [hfind] at h; simp at h

theorem deleteRow_error_rows (i u : Nat) (s s' : S) (h : deleteRow i u s = .error s') :
    s'.rows = s.rows := by
  unfold deleteRow at h
  rcases hb : takeFault s with ⟨ok, s₁⟩
  rw [hb] at h
  have hrows : s₁.rows = s.rows := by rw [← takeFault_rows s, hb]
  cases ok with
  | false => simp at h; rw [← h, hrows]
  | true =>
    simp only [if_true] at h
    cases hfind : s₁.rows.find? (fun r => decide (r.id = i) && decide (r.userId = u)) with
    | some r => rw [hfind] at h; simp at h
    | none => rw [hfind] at h; simp at h; rw [← h, hrows]

theorem deleteManyRows_ok_rows (p : Todo → Bool) (s s' : S) (h : deleteManyRows p s = .ok s') :
    s'.rows = s.rows.filter (fun r => !(p r)) := by
  unfold deleteManyRows at h
  rcases hb : takeFault s with ⟨ok, s₁⟩
  rw [hb] at h
  have hrows : s₁.rows = s.rows := by rw [← takeFault_rows s, hb]
  cases ok with
  | false => simp at h
  | true => simp at h; rw [← h, hrows]

theorem deleteManyRows_error_rows (p : Todo → Bool) (s s' : S)
    (h : deleteManyRows p s = .error s') : s'.rows = s.rows := by
  unfold deleteManyRows at h
  rcases hb : takeFault s with ⟨ok, s₁⟩
  rw [hb] at h
  have hrows : s₁.rows = s.rows := by rw [← takeFault_rows s, hb]
  cases ok with
  | false => simp at h; rw [← h, hrows]
  | true => simp at h

theorem removeFirst_subset (p : Todo → Bool) :
    ∀ (l : List Todo) (x : Todo), x ∈ removeFirst p l → x ∈ l := by
  intro l
  induction l with
  | nil => intro x h; exact absurd h (List.not_mem_nil x)
  | cons a rest ih =>
    intro x h
    by_cases hpa : p a = true
    · rw [removeFirst, if_pos hpa] at h
      exact List.mem_cons_of_mem a h
    · rw [removeFirst, if_neg hpa] at h
      rcases List.mem_cons.mp h with rfl | h
      · exact List.mem_cons_self x rest
      · exact List.mem_cons_of_mem a (ih x h)

theorem filter_removeFirst (p q : Todo → Bool) (h : ∀ x, p x = true → q x = false) :
    ∀ l : List Todo, (removeFirst p l).filter q = l.filter q := by
  intro l
  induction l with
  | nil => rfl
  | cons a rest ih =>
    by_cases hpa : p a = true
    · rw [removeFirst, if_pos hpa, List.filter_cons, h a hpa]
      simp
    · rw [removeFirst, if_neg hpa, List.filter_cons, List.filter_cons, ih]

theorem filter_filterNot (p q : Todo → Bool) (h : ∀ x, p x = true → q x = false)
    (l : List Todo) : (l.filter (fun x => !(p x))).filter q = l.filter q := by
  rw [List.filter_filter]
  apply List.filter_congr
  intro x _
  cases hpx : p x with
  | true => simp [h x hpx]
  | false => simp

/-! Row-effect lemmas for the handlers. -/

theorem reconcile_rows_any (u : Nat) (start : Int) :
    ∀ (tpls : List Todo) (s : S),
      ∃ new, (exceptState (reconcile u start tpls s)).rows = s.rows ++ new ∧
        ∀ x ∈ new, x.userId = u ∧ x.isTemplate = false ∧ x.recurrence = Recurrence.NONE ∧
          ∃ tid, x.templateId = some tid := by
  intro tpls
  induction tpls with
  | nil => intro s; exact ⟨[], by simp [reconcile, exceptState], by simp⟩
  | cons tpl rest ih =>
    intro s
    cases hfind : s.rows.find? (instPredB u start tpl.id) with
    | some r =>
      rcases ih s with ⟨new, h1, h2⟩
      exact ⟨new, by simpa [reconcile, hfind] using h1, h2⟩
    | none =>
      rcases createRow_cases (materialize u start tpl) s with
        ⟨s₁, hc, hrows, _⟩ | ⟨s₁, hc, hrows, _⟩
      · refine ⟨[], ?_, by simp⟩
        simp [reconcile, hfind, hc, exceptState, hrows]
      · rcases ih s₁ with ⟨new, h1, h2⟩
        refine ⟨materialize u start tpl s.nextId :: new, ?_, ?_⟩
        · rw [reconcile, hfind, hc]
          simp only []
          rw [h1, hrows]
          simp
        · intro x hx
          rcases List.mem_cons.mp hx with rfl | hx
          · exact ⟨rfl, rfl, rfl, tpl.id, rfl⟩
          · exact h2 x hx

theorem handleGET_snd (u : Nat) (c : Option Bool) (lim d : Nat) (s : S) :
    (handleGET u c lim d s).2 =
      exceptState (reconcile u ((d : Int) * 1440) (s.rows.filter (dailyTplB u)) s) := by
  unfold handleGET
  cases h : reconcile u ((d : Int) * 1440) (s.rows.filter (dailyTplB u)) s <;>
    simp [h, exceptState]

theorem handleGET_list_userId (u : Nat) (c : Option Bool) (lim d : Nat) (s : S)
    (L : List Todo) (h : (handleGET u c lim d s).1 = .okList L) :
    ∀ x ∈ L, x.userId = u ∧ x.isTemplate = false := by
  cases hrec : reconcile u ((d : Int) * 1440) (s.rows.filter (dailyTplB u)) s with
  | error s₁ =>
    rw [handleGET_of_reconcile_error u c lim d s s₁ hrec] at h
    simp at h
  | ok s₁ =>
    rw [handleGET_of_reconcile_ok u c lim d s s₁ hrec] at h
    simp at h
    intro x hx
    rw [← h] at hx
    have hx₁ : x ∈ (s₁.rows.filter (listPredB u c)).take lim :=
      (sortByTime_perm _).mem_iff.mp hx
    have hx₂ : x ∈ s₁.rows.filter (listPredB u c) := List.mem_of_mem_take hx₁
    have := List.of_mem_filter hx₂
    unfold listPredB at this
    simp at this
    exact this.1

theorem handlePOST_rows (u : Nat) (b : PostBody) (now : Int) (s : S) :
    (handlePOST u b now s).2.rows = s.rows ∨
    ∃ x, (handlePOST u b now s).2.rows = s.rows ++ [x] ∧ x.userId = u ∧
      shapeInvB x = true := by
  unfold handlePOST
  by_cases htitle : b.title = ""
  · simp [htitle]
  · simp only [htitle, if_false, ite_not]
    by_cases hb : (decide (b.recurrence = some Recurrence.DAILY) ||
        decide (b.isTemplate = some true)) = true
    · rw [if_pos (by simpa using hb)]
      rcases createRow_cases (fun i =>
        { id := i, userId := u, title := b.title, notes := b.notes,
          timeOfDay := some (fmtHM (b.dueDate.getD now)), recurrence := .DAILY,
          isTemplate := true, tags := b.tags.getD [], completed := false,
          dueAt := none, templateId := none }) s with ⟨s₁, hc, hrows, _⟩ | ⟨s₁, hc, hrows, _⟩
      · rw [hc]
        simp [hrows]
      · rw [hc]
        right
        refine ⟨_, by simpa using hrows, rfl, ?_⟩
        rfl
    · rw [if_neg (by simpa using hb)]
      rcases createRow_cases (fun i =>
        { id := i, userId := u, title := b.title, notes := b.notes,
          dueAt := some (dayStart now +
            60 * jsOr (parseHM (jsOrStr b.timeOfDay (fmtHM now))).1 (hourOf now : Int) +
            jsOr (parseHM (jsOrStr b.timeOfDay (fmtHM now))).2 (minOf now : Int)),
          timeOfDay := some (jsOrStr b.timeOfDay (fmtHM now)), recurrence := .NONE,
          isTemplate := false, tags := b.tags.getD [],
          completed := b.completed.getD false, templateId := none }) s with
        ⟨s₁, hc, hrows, _⟩ | ⟨s₁, hc, hrows, _⟩
      · rw [hc]
        simp [hrows]
      · rw [hc]
        right
        refine ⟨_, by simpa using hrows, rfl, ?_⟩
        rfl

/-- The PUT whitelist never touches id, userId or templateId, and leaves
recurrence and isTemplate alone when the body does not set them. -/
theorem applyUpdates_const (b : PutBody) (now : Int) (r : Todo) :
    (applyUpdates b now r).id = r.id ∧
    (applyUpdates b now r).userId = r.userId ∧
    (applyUpdates b now r).templateId = r.templateId ∧
    (b.recurrence = none → (applyUpdates b now r).recurrence = r.recurrence) ∧
    (b.isTemplate = none → (applyUpdates b now r).isTemplate = r.isTemplate) := by
  unfold applyUpdates
  rcases b with ⟨i, title, notes, tags, completed, timeOfDay, rec₀, isTpl⟩
  cases title <;> cases notes <;> cases tags <;> cases completed <;> cases timeOfDay <;>
    cases rec₀ <;> cases isTpl <;> simp

theorem updateRow_some_decomp (i u : Nat) (f : Todo → Todo) :
    ∀ (l : List Todo) (t : Todo) (l' : List Todo), updateRow i u f l = some (t, l') →
      ∃ l₁ r l₂, l = l₁ ++ r :: l₂ ∧ l' = l₁ ++ f r :: l₂ ∧ t = f r ∧
        r.id = i ∧ r.userId = u := by
  intro l
  induction l with
  | nil => intro t l' h; simp [updateRow] at h
  | cons a rest ih =>
    intro t l' h
    by_cases ha : (decide (a.id = i) && decide (a.userId = u)) = true
    · rw [updateRow, if_pos ha] at h
      simp only [Option.some.injEq, Prod.mk.injEq] at h
      simp at ha
      exact ⟨[], a, rest, by simp, by simp [← h.2], h.1.symm, ha.1, ha.2⟩
    · rw [updateRow, if_neg ha] at h
      cases hrec : updateRow i u f rest with
      | none => rw [hrec] at h; simp at h
      | some tl =>
        rw [hrec] at h
        rcases tl with ⟨t₀, l₀⟩
        simp at h
        rcases h with ⟨rfl, rfl⟩
        rcases ih t₀ l₀ hrec with ⟨l₁, r, l₂, he1, he2, he3, he4, he5⟩
        exact ⟨a :: l₁, r, l₂, by simp [he1], by simp [he2], he3, he4, he5⟩

theorem updateRow_none_of_missing (i u : Nat) (f : Todo → Todo) :
    ∀ l : List Todo, (∀ x ∈ l, ¬(x.id = i ∧ x.userId = u)) →
      updateRow i u f l = none := by
  intro l
  induction l with
  | nil => intro _; rfl
  | cons a rest ih =>
    intro h
    have ha : (decide (a.id = i) && decide (a.userId = u)) ≠ true := by
      simp
      intro h1 h2
      exact h a (by simp) ⟨h1, h2⟩
    rw [updateRow, if_neg ha, ih (fun x hx => h x (by simp [hx]))]

theorem handlePUT_cases (u : Nat) (b : PutBody) (now : Int) (s : S) :
    ((handlePUT u b now s).2.rows = s.rows) ∨
    (∃ l₁ r l₂, s.rows = l₁ ++ r :: l₂ ∧
      (handlePUT u b now s).2.rows = l₁ ++ applyUpdates b now r :: l₂ ∧
      r.id = b.id ∧ r.userId = u) := by
  unfold handlePUT
  rcases hb : takeFault s with ⟨ok, s₁⟩
  have hrows : s₁.rows = s.rows := by rw [← takeFault_rows s, hb]
  cases ok with
  | false => left; simpa using hrows
  | true =>
    simp only [if_true]
    cases hup : updateRow b.id u (applyUpdates b now) s₁.rows with
    | none => left; simpa using hrows
    | some tl =>
      rcases tl with ⟨t, l'⟩
      rcases updateRow_some_decomp b.id u (applyUpdates b now) s₁.rows t l' hup with
        ⟨l₁, r, l₂, he1, he2, _, he4, he5⟩
      right
      exact ⟨l₁, r, l₂, by rw [← hrows, he1], by simpa using he2, he4, he5⟩

theorem handlePUT_error_of_missing (u : Nat) (b : PutBody) (now : Int) (s : S)
    (h : ∀ x ∈ s.rows, ¬(x.id = b.id ∧ x.userId = u)) :
    (handlePUT u b now s).1 = .internalError := by
  unfold handlePUT
  rcases hb : takeFault s with ⟨ok, s₁⟩
  have hrows : s₁.rows = s.rows := by rw [← takeFault_rows s, hb]
  cases ok with
  | false => simp
  | true =>
    have hup : updateRow b.id u (applyUpdates b now) s₁.rows = none := by
      apply updateRow_none_of_missing
      rw [hrows]
      exact h
    simp [hup]

/-- Every row removal the DELETE branch performs filters on predicates
that require userId = u; the result rows take one of four shapes. -/
theorem handleDELETE_rows_cases (u i : Nat) (s : S) :
    (handleDELETE u i s).2.rows = s.rows ∨
    (∃ p : Todo → Bool, (∀ x, p x = true → x.userId = u) ∧
      (handleDELETE u i s).2.rows = removeFirst p s.rows) ∨
    (∃ p : Todo → Bool, (∀ x, p x = true → x.userId = u) ∧
      (handleDELETE u i s).2.rows = s.rows.filter (fun x => !(p x))) ∨
    (∃ p q : Todo → Bool, (∀ x, p x = true → x.userId = u) ∧
      (∀ x, q x = true → x.userId = u) ∧
      (handleDELETE u i s).2.rows = (removeFirst p s.rows).filter (fun x => !(q x))) := by
  unfold handleDELETE
  cases hfind : s.rows.find? (fun r => decide (r.id = i) && decide (r.userId = u)) with
  | none => left; rfl
  | some r =>
    cases htid : r.templateId with
    | some tid =>
      cases h1 : deleteRow tid u s with
      | error s₁ =>
        left
        simp only [htid, h1]
        simpa using deleteRow_error_rows tid u s s₁ h1
      | ok s₁ =>
        have hr₁ := deleteRow_ok_rows tid u s s₁ h1
        cases h2 : deleteManyRows
            (fun x => decide (x.templateId = some tid) && decide (x.userId = u)) s₁ with
        | error s₂ =>
          right; left
          refine ⟨fun x => decide (x.id = tid) && decide (x.userId = u), ?_, ?_⟩
          · intro x hx; simp at hx; exact hx.2
          · have h3 := deleteManyRows_error_rows _ s₁ s₂ h2
            simp only [htid, h1, h2]
            simpa [h3] using hr₁
        | ok s₂ =>
          right; right; right
          refine ⟨fun x => decide (x.id = tid) && decide (x.userId = u),
            fun x => decide (x.templateId = some tid) && decide (x.userId = u), ?_, ?_, ?_⟩
          · intro x hx; simp at hx; exact hx.2
          · intro x hx; simp at hx; exact hx.2
          · have h3 := deleteManyRows_ok_rows _ s₁ s₂ h2
            simp only [htid, h1, h2]
            simp [h3, hr₁]
    | none =>
      cases hit : r.isTemplate with
      | true =>
        cases h1 : deleteManyRows
            (fun x => (decide (x.id = i) || decide (x.templateId = some i)) &&
              decide (x.userId = u)) s with
        | error s₁ =>
          left
          simp only [htid, hit, h1]
          simpa using deleteManyRows_error_rows _ s s₁ h1
        | ok s₁ =>
          right; right; left
          refine ⟨fun x => (decide (x.id = i) || decide (x.templateId = some i)) &&
            decide (x.userId = u), ?_, ?_⟩
          · intro x hx; simp at hx; exact hx.2
          · simp only [htid, hit, h1]
            simpa using deleteManyRows_ok_rows _ s s₁ h1
      | false =>
        cases h1 : deleteRow i u s with
        | error s₁ =>
          left
          simp only [htid, hit, h1]
          simpa using deleteRow_error_rows i u s s₁ h1
        | ok s₁ =>
          right; left
          refine ⟨fun x => decide (x.id = i) && decide (x.userId = u), ?_, ?_⟩
          · intro x hx; simp at hx; exact hx.2
          · simp only [htid, hit, h1]
            simpa using deleteRow_ok_rows i u s s₁ h1

theorem handleDELETE_subset (u i : Nat) (s : S) :
    ∀ x ∈ (handleDELETE u i s).2.rows, x ∈ s.rows := by
  rcases handleDELETE_rows_cases u i s with h | ⟨p, _, h⟩ | ⟨p, _, h⟩ | ⟨p, q, _, _, h⟩ <;>
    rw [h] <;> intro x hx
  · exact hx
  · exact removeFirst_subset p s.rows x hx
  · exact List.mem_of_mem_filter hx
  · exact removeFirst_subset p s.rows x (List.mem_of_mem_filter hx)

theorem handleDELETE_filter_pres (u i : Nat) (s : S) (qv : Todo → Bool)
    (hq : ∀ x, x.userId = u → qv x = false) :
    (handleDELETE u i s).2.rows.filter qv = s.rows.filter qv := by
  rcases handleDELETE_rows_cases u i s with h | ⟨p, hp, h⟩ | ⟨p, hp, h⟩ | ⟨p, q, hp, hq', h⟩ <;>
    rw [h]
  · exact filter_removeFirst p qv (fun x hx => hq x (hp x hx)) s.rows
  · exact filter_filterNot p qv (fun x hx => hq x (hp x hx)) s.rows
  · rw [filter_filterNot q qv (fun x hx => hq x (hq' x hx)),
      filter_removeFirst p qv (fun x hx => hq x (hp x hx))]

theorem handleDELETE_notFound (u i : Nat) (s : S)
    (h : ∀ x ∈ s.rows, ¬(x.id = i ∧ x.userId = u)) :
    handleDELETE u i s = (.notFound, s) := by
  have hfind : s.rows.find? (fun r => decide (r.id = i) && decide (r.userId = u)) = none := by
    apply List.find?_eq_none.mpr
    intro x hx
    simp
    intro h1
    exact fun h2 => h x hx ⟨h1, h2⟩
  unfold handleDELETE
  rw [hfind]

theorem shapeInvB_of (x : Todo) (h1 : x.isTemplate = false) (h2 : x.recurrence = .NONE) :
    shapeInvB x = true := by
  unfold shapeInvB
  simp [h1, h2]

theorem shapeInvB_congr (x y : Todo) (h1 : x.isTemplate = y.isTemplate)
    (h2 : x.recurrence = y.recurrence) (h3 : x.templateId = y.templateId) :
    shapeInvB x = shapeInvB y := by
  unfold shapeInvB
  rw [h1, h2, h3]

/-- C5, amended claim.  The shape implications (isTemplate implies
recurrence DAILY and no templateId; a templateId implies a non-template
with recurrence NONE) hold for every record the create operation or the
materializer adds, are preserved by delete, and are preserved by every
update whose payload does NOT set recurrence or isTemplate.  An update
that sets recurrence or isTemplate writes the value verbatim with no
consistency check, and can break both implications (see the
counterexample), so the claim's assertion that the update operation
preserves the implications on every record is false. -/
theorem C5_shape_invariants (u : Nat) :
    (∀ (b : PostBody) (now : Int) (s : S),
      (∀ r ∈ s.rows, shapeInvB r = true) →
      ∀ x ∈ (handlePOST u b now s).2.rows, shapeInvB x = true) ∧
    (∀ (c : Option Bool) (lim d : Nat) (s : S),
      (∀ r ∈ s.rows, shapeInvB r = true) →
      ∀ x ∈ (handleGET u c lim d s).2.rows, shapeInvB x = true) ∧
    (∀ (i : Nat) (s : S),
      (∀ r ∈ s.rows, shapeInvB r = true) →
      ∀ x ∈ (handleDELETE u i s).2.rows, shapeInvB x = true) ∧
    (∀ (b : PutBody) (now : Int) (s : S), b.recurrence = none → b.isTemplate = none →
      (∀ r ∈ s.rows, shapeInvB r = true) →
      ∀ x ∈ (handlePUT u b now s).2.rows, shapeInvB x = true) := by
  refine ⟨?_, ?_, ?_, ?_⟩
  · intro b now s hinv x hx
    rcases handlePOST_rows u b now s with h | ⟨y, h, _, hy⟩
    · exact hinv x (h ▸ hx)
    · rw [h] at hx
      rcases List.mem_append.mp hx with hx | hx
      · exact hinv x hx
      · rw [List.mem_singleton.mp hx]
        exact hy
  · intro c lim d s hinv x hx
    rcases reconcile_rows_any u ((d : Int) * 1440) (s.rows.filter (dailyTplB u)) s with
      ⟨new, hrows, hprops⟩
    rw [handleGET_snd, hrows] at hx
    rcases List.mem_append.mp hx with hx | hx
    · exact hinv x hx
    · rcases hprops x hx with ⟨_, h2, h3, _⟩
      exact shapeInvB_of x h2 h3
  · intro i s hinv x hx
    exact hinv x (handleDELETE_subset u i s x hx)
  · intro b now s hrec hit hinv x hx
    rcases handlePUT_cases u b now s with h | ⟨l₁, r, l₂, he1, he2, _, _⟩
    · exact hinv x (h ▸ hx)
    · rw [he2] at hx
      rcases List.mem_append.mp hx with hx | hx
      · exact hinv x (by rw [he1]; exact List.mem_append_left _ hx)
      · rcases List.mem_cons.mp hx with rfl | hx
        · rcases applyUpdates_const b now r with ⟨_, _, h3, h4, h5⟩
          rw [shapeInvB_congr _ r (h5 hit) (h4 hrec) h3]
          exact hinv r (by rw [he1]; exact List.mem_append_right _ (List.mem_cons_self r l₂))
        · exact hinv x (by rw [he1]; exact List.mem_append_right _ (List.mem_cons_of_mem r hx))

/-- Witness one-off row. -/
def c5worig : Todo := { id := 1, userId := 1, title := "m", dueAt := some 540 }

/-- The same row after completing it. -/
def c5wupd : Todo := { c5worig with completed := true }

/-- Witness store. -/
def c5wstore : S := { rows := [c5worig], nextId := 2 }

/-- Witness PUT body that does not touch recurrence or isTemplate. -/
def c5wbody : PutBody := { id := 1, completed := some true }

theorem C5_shape_invariants_witness : shapeInvB c5wupd = true :=
  (C5_shape_invariants 1).2.2.2 c5wbody 0 c5wstore rfl rfl (by decide) c5wupd (by decide)

/-- C9, amended claim.  For distinct users u and v: no operation issued
as u ever changes v's rows (their filtered sublist is preserved exactly,
under any fault schedule), the GET listing contains only u's records,
and a delete naming an id held only by other users answers 404 with the
store unchanged.  An update naming such an id also touches nothing, but
surfaces as a 500 internal error (Prisma P2025 reaching the generic
catch), not as a 404. -/
theorem C9_user_isolation (u v : Nat) (hvu : v ≠ u) :
    (∀ (c : Option Bool) (lim d : Nat) (s : S),
      (handleGET u c lim d s).2.rows.filter (fun x => decide (x.userId = v)) =
        s.rows.filter (fun x => decide (x.userId = v)) ∧
      (∀ L, (handleGET u c lim d s).1 = .okList L → ∀ x ∈ L, x.userId = u)) ∧
    (∀ (b : PostBody) (now : Int) (s : S),
      (handlePOST u b now s).2.rows.filter (fun x => decide (x.userId = v)) =
        s.rows.filter (fun x => decide (x.userId = v))) ∧
    (∀ (b : PutBody) (now : Int) (s : S),
      (handlePUT u b now s).2.rows.filter (fun x => decide (x.userId = v)) =
        s.rows.filter (fun x => decide (x.userId = v)) ∧
      ((∀ x ∈ s.rows, x.id = b.id → x.userId ≠ u) →
        (handlePUT u b now s).1 = .internalError)) ∧
    (∀ (i : Nat) (s : S),
      (handleDELETE u i s).2.rows.filter (fun x => decide (x.userId = v)) =
        s.rows.filter (fun x => decide (x.userId = v)) ∧
      ((∀ x ∈ s.rows, x.id = i → x.userId ≠ u) → handleDELETE u i s = (.notFound, s))) := by
  refine ⟨?_, ?_, ?_, ?_⟩
  · intro c lim d s
    constructor
    · rcases reconcile_rows_any u ((d : Int) * 1440) (s.rows.filter (dailyTplB u)) s with
        ⟨new, hrows, hprops⟩
      rw [handleGET_snd, hrows, List.filter_append]
      have hnew : new.filter (fun x => decide (x.userId = v)) = [] := by
        apply List.filter_eq_nil_iff.mpr
        intro x hx
        rcases hprops x hx with ⟨h1, _⟩
        simp [h1, hvu.symm]
      rw [hnew, List.append_nil]
    · intro L hL x hx
      exact (handleGET_list_userId u c lim d s L hL x hx).1
  · intro b now s
    rcases handlePOST_rows u b now s with h | ⟨y, h, hy, _⟩
    · rw [h]
    · rw [h, List.filter_append]
      have : [y].filter (fun x => decide (x.userId = v)) = [] := by
        simp [hy, hvu.symm]
      rw [this, List.append_nil]
  · intro b now s
    constructor
    · rcases handlePUT_cases u b now s with h | ⟨l₁, r, l₂, he1, he2, _, hru⟩
      · rw [h]
      · rw [he1, he2, List.filter_append, List.filter_append]
        congr 1
        have h1 : (applyUpdates b now r).userId = u := by
          rcases applyUpdates_const b now r with ⟨_, h2, _⟩
          rw [h2, hru]
        rw [List.filter_cons, List.filter_cons]
        simp [h1, hru, hvu.symm]
    · intro hmiss
      apply handlePUT_error_of_missing
      intro x hx ⟨h1, h2⟩
      exact hmiss x hx h1 h2
  · intro i s
    constructor
    · exact handleDELETE_filter_pres u i s _ (fun x hx => by simp [hx, hvu.symm])
    · intro hmiss
      apply handleDELETE_notFound
      intro x hx ⟨h1, h2⟩
      exact hmiss x hx h1 h2

/-- Witness: a record owned by user 1. -/
def c9wA : Todo := { id := 1, userId := 1, title := "a", dueAt := some 500 }

/-- Witness: a record owned by user 2. -/
def c9wB : Todo := { id := 5, userId := 2, title := "b", dueAt := some 600 }

/-- Witness store with rows of both users. -/
def c9wstore : S := { rows := [c9wA, c9wB], nextId := 6 }

theorem C9_user_isolation_witness :
    (2 : Nat) ≠ 1 ∧
    (handleGET 1 none 200 0 c9wstore).2.rows.filter (fun x => decide (x.userId = 2)) =
      c9wstore.rows.filter (fun x => decide (x.userId = 2)) ∧
    handleDELETE 1 5 c9wstore = (.notFound, c9wstore) ∧
    (handlePUT 1 { id := 5, completed := some true } 0 c9wstore).1 = .internalError :=
  ⟨by decide,
   ((C9_user_isolation 1 2 (by decide)).1 none 200 0 c9wstore).1,
   ((C9_user_isolation 1 2 (by decide)).2.2.2 5 c9wstore).2 (by decide),
   ((C9_user_isolation 1 2 (by decide)).2.2.1 { id := 5, completed := some true } 0 c9wstore).2
     (by decide)⟩
